import Mathlib

set_option maxRecDepth 8192

/-!
Shallow embedding of the Game Boy CPU core of this repository:
`src/interrupt.rs` (interrupt controller) and `src/instruction_executor.rs`
(instruction executor and interrupt dispatch).  8-bit quantities are `Nat`
kept below 256, 16-bit quantities are `Nat` kept below 65536; every place the
Rust code wraps is an explicit `% 256` / `% 65536`.  Rust's plain (checked)
`+` / `-` on machine integers is modelled as `Option` (overflow aborts the
step), while the explicitly wrapping `wrapping_add` / `wrapping_sub` /
`overflowing_add` / `overflowing_sub` calls are total, mirroring the
distinction the source draws between the two.
-/

namespace Feboy

/-- Checked machine addition: Rust `a + b` on an integer type of `w` values
    aborts (debug overflow check) when the mathematical sum leaves the type. -/
def checkedAdd (w a b : Nat) : Option Nat :=
  if a + b < w then some (a + b) else none

/-- Checked machine subtraction: Rust `a - b` aborts when it would underflow. -/
def checkedSub (a b : Nat) : Option Nat :=
  if b ≤ a then some (a - b) else none

/-- Rust `u8::overflowing_add`. -/
def overflowing_add8 (a b : Nat) : Nat × Bool :=
  ((a + b) % 256, decide (255 < a + b))

/-- Rust `u8::overflowing_sub`. -/
def overflowing_sub8 (a b : Nat) : Nat × Bool :=
  ((a + 256 - b) % 256, decide (a < b))

/-- Rust `u16::overflowing_add`. -/
def overflowing_add16 (a b : Nat) : Nat × Bool :=
  ((a + b) % 65536, decide (65535 < a + b))

/-- Rust `u16::overflowing_sub`. -/
def overflowing_sub16 (a b : Nat) : Nat × Bool :=
  ((a + 65536 - b) % 65536, decide (a < b))

/-- Function `calc_with_carry` of `instruction_executor.rs`: fold the operand
    list into an accumulator that starts at 0, remembering only the FIRST
    overflow flag; once the flag is set later overflows are not recorded. -/
def calc_with_carry (operands : List Nat) (op : Nat → Nat → Nat × Bool) : Nat × Bool :=
  operands.foldl
    (fun p x => if p.2 then ((op p.1 x).1, true) else op p.1 x)
    (0, false)

/-- Function `half_carry_8_add` of `instruction_executor.rs`:
    `(((a & 0xF) + ((b + c) & 0xF)) & 0x10) == 0x10`.  The inner `b + c` is a
    checked `u8` addition, hence the `Option`. -/
def half_carry_8_add (a b c : Nat) : Option Bool :=
  (checkedAdd 256 b c).map
    (fun s => (((a &&& 0xF) + (s &&& 0xF)) &&& 0x10) == 0x10)

/-- Function `half_carry_8_sub` of `instruction_executor.rs`:
    `(((a & 0xF).wrapping_sub(b.wrapping_add(c) & 0xF)) & 0x10) == 0x10`. -/
def half_carry_8_sub (a b c : Nat) : Bool :=
  (((a &&& 0xF) + 256 - ((b + c) % 256 &&& 0xF)) % 256 &&& 0x10) == 0x10

/-- Function `half_carry_16_add` of `instruction_executor.rs`:
    `((a & 0xFF).wrapping_add((b.wrapping_add(c)) & 0xFF)) & 0x10 == 0x1000`.
    Transcribed verbatim; note that a value masked with `0x10` can never equal
    `0x1000`, so this is constantly false (see `half_carry_16_add_false`). -/
def half_carry_16_add (a b c : Nat) : Bool :=
  (((a &&& 0xFF) + ((b + c) % 65536 &&& 0xFF)) % 65536 &&& 0x10) == 0x1000

/-- Function `half_carry_16_sub` of `instruction_executor.rs`, transcribed
    verbatim; constantly false for the same reason as `half_carry_16_add`. -/
def half_carry_16_sub (a b c : Nat) : Bool :=
  (((a &&& 0xFF) + 65536 - ((b + c) % 65536 &&& 0xFF)) % 65536 &&& 0x10) == 0x1000

/-- Interrupt sources, enum `InterruptId` of `interrupt.rs`; the enum
    discriminants (the dispatch vectors) are exposed as `InterruptId.vector`. -/
inductive InterruptId
  | VBlankInt
  | StatInt
  | TimerInt
  | SerialInt
  | JoypadInt
  deriving DecidableEq

/-- Discriminant of `InterruptId` (`*interrupt_id as u16` in the executor). -/
def InterruptId.vector : InterruptId → Nat
  | .VBlankInt => 0x40
  | .StatInt => 0x48
  | .TimerInt => 0x50
  | .SerialInt => 0x58
  | .JoypadInt => 0x60

/-- Enum `InterruptState` of `interrupt.rs`. -/
inductive InterruptState
  | Active
  | Inactive
  | Enabled
  | Requested
  deriving DecidableEq

/-- Struct `InterruptHandler` of `interrupt.rs`: the IF byte (`flag`) and the
    IE byte (`enable`).  The five `InterruptMask` fields of the Rust struct
    are the constants exposed as `InterruptHandler.mask`. -/
structure InterruptHandler where
  flag : Nat
  enable : Nat
  deriving DecidableEq

namespace InterruptHandler

/-- Impl `Index<InterruptId> for InterruptHandler`: the one-hot mask of each
    source, as initialized in `InterruptHandler::new`. -/
def mask : InterruptId → Nat
  | .VBlankInt => 0x01
  | .StatInt => 0x02
  | .TimerInt => 0x04
  | .SerialInt => 0x08
  | .JoypadInt => 0x10

/-- Function `InterruptHandler::new`: both registers start at 0x00. -/
def new : InterruptHandler := { flag := 0x00, enable := 0x00 }

def IE_ADDRESS : Nat := 0xFFFF

def IF_ADDRESS : Nat := 0xFF0F

/-- Function `InterruptHandler::calc_state`. -/
def calc_state (s : InterruptHandler) (interrupt : InterruptId) : InterruptState :=
  let m := mask interrupt
  let enabled := s.enable &&& m != 0
  let requested := s.flag &&& m != 0
  if requested && enabled then .Active
  else if enabled then .Enabled
  else if requested then .Requested
  else .Inactive

/-- Priority order `[VBlankInt, StatInt, TimerInt, SerialInt, JoypadInt]`. -/
def priorityOrder : List InterruptId :=
  [.VBlankInt, .StatInt, .TimerInt, .SerialInt, .JoypadInt]

/-- Function `InterruptHandler::get_state`: the state of the first
    higher-priority Active source, if any, else this source's own state. -/
def get_state (s : InterruptHandler) (interrupt : InterruptId) : InterruptState :=
  let priority :=
    ((priorityOrder.takeWhile (fun i => i != interrupt)).filter
      (fun i => s.calc_state i == .Active)).head?
  match priority with
  | some p => s.calc_state p
  | none => s.calc_state interrupt

/-- Function `InterruptHandler::set`, at the single-source call shape the
    executor uses (`gb.mem.interrupt.set(*interrupt_id, false)`): set or clear
    the source's bit in IF (`self.flag |= mask` / `self.flag &= !mask`). -/
def set (s : InterruptHandler) (interrupt : InterruptId) (b : Bool) : InterruptHandler :=
  if b then { s with flag := s.flag ||| mask interrupt }
  else { s with flag := s.flag &&& (0xFF ^^^ mask interrupt) }

/-- Function `InterruptHandler::read`. -/
def read (s : InterruptHandler) (address : Nat) : Option Nat :=
  if address = IE_ADDRESS then some s.enable
  else if address = IF_ADDRESS then some s.flag
  else none

/-- Function `InterruptHandler::write`: stores `value | 0xE0` at the two
    mapped addresses and reports whether the address was accepted. -/
def write (s : InterruptHandler) (address : Nat) (value : Nat) : InterruptHandler × Bool :=
  if address = IE_ADDRESS then ({ s with enable := value ||| 0xE0 }, true)
  else if address = IF_ADDRESS then ({ s with flag := value ||| 0xE0 }, true)
  else (s, false)

/-- States of the interrupt controller reachable from `new` by its mutating
    operations (`write` with a byte value, and `set`). -/
inductive Reachable : InterruptHandler → Prop
  | new : Reachable new
  | write (s : InterruptHandler) (address value : Nat) (hv : value < 256)
      (hs : Reachable s) : Reachable (s.write address value).1
  | set (s : InterruptHandler) (interrupt : InterruptId) (b : Bool)
      (hs : Reachable s) : Reachable (s.set interrupt b)

end InterruptHandler

/-- Struct `FlagRegister` of `register.rs` (file not present under `src/`).
    Modelled from the spec: four semantic bits z, n, h, c. -/
structure FlagRegister where
  z : Bool
  n : Bool
  h : Bool
  c : Bool
  deriving DecidableEq

namespace FlagRegister

/-- Packed byte form of the flag register.  Modelled from the spec:
    value = (z shl 7) or (n shl 6) or (h shl 5) or (c shl 4); low nibble 0. -/
def value (f : FlagRegister) : Nat :=
  (if f.z then 0x80 else 0) + (if f.n then 0x40 else 0) +
  (if f.h then 0x20 else 0) + (if f.c then 0x10 else 0)

/-- Restoring F from a byte (`gb.f.set(..)` in POP AF).  Modelled from the
    spec: read bits 7..4; the low nibble is discarded (masked to zero). -/
def set (v : Nat) : FlagRegister :=
  { z := v.testBit 7, n := v.testBit 6, h := v.testBit 5, c := v.testBit 4 }

end FlagRegister

/-- Condition codes NZ, Z, NC, C. -/
inductive CC
  | NZ
  | Z
  | NC
  | C
  deriving DecidableEq

/-- Condition-code evaluation (`gb.cc_flag`, defined outside `src/`).
    Modelled from the spec: NZ = not Z, Z = Z, NC = not C, C = C. -/
def cc_flag (f : FlagRegister) : CC → Bool
  | .NZ => !f.z
  | .Z => f.z
  | .NC => !f.c
  | .C => f.c

/-- 16-bit register pairs usable as `WordRegister::Double` operands. -/
inductive Pair
  | BC
  | DE
  | HL
  deriving DecidableEq

/-- CPU + bus state (`Gameboy` of `instruction_fetcher.rs`, not present under
    `src/`; its fields are those the executor dereferences).  The memory bus
    is modelled from the spec as a plain byte-addressable store (the MMU with
    its I/O side effects is out of the embedded core); the interrupt
    controller the executor reaches through `gb.mem.interrupt` is the
    `interrupt` field. -/
structure Gameboy where
  a : Nat
  b : Nat
  c : Nat
  d : Nat
  e : Nat
  h : Nat
  l : Nat
  f : FlagRegister
  sp : Nat
  pc : Nat
  ime : Bool
  ime_counter : Int
  interrupt : InterruptHandler
  mem : Nat → Nat

/-- Pointwise memory update (`gb.mem *= (addr, v)` on the plain-store model). -/
def memWrite (m : Nat → Nat) (addr v : Nat) : Nat → Nat :=
  fun x => if x = addr then v else m x

namespace Gameboy

/-- Value of the HL pair (`gb.hl().to_address()`). -/
def hl (gb : Gameboy) : Nat := gb.h * 256 + gb.l

/-- Write the HL pair (`gb.set_word_register(v, gb.hl())`). -/
def set_hl (gb : Gameboy) (v : Nat) : Gameboy :=
  { gb with h := v / 256, l := v % 256 }

/-- Value of a `WordRegister::Double` operand. -/
def pairValue (gb : Gameboy) : Pair → Nat
  | .BC => gb.b * 256 + gb.c
  | .DE => gb.d * 256 + gb.e
  | .HL => gb.h * 256 + gb.l

/-- High byte register of a pair. -/
def pairHigh (gb : Gameboy) : Pair → Nat
  | .BC => gb.b
  | .DE => gb.d
  | .HL => gb.h

/-- Low byte register of a pair. -/
def pairLow (gb : Gameboy) : Pair → Nat
  | .BC => gb.c
  | .DE => gb.e
  | .HL => gb.l

/-- Write both bytes of a pair. -/
def setPair (gb : Gameboy) : Pair → Nat → Nat → Gameboy
  | .BC, hi, lo => { gb with b := hi, c := lo }
  | .DE, hi, lo => { gb with d := hi, e := lo }
  | .HL, hi, lo => { gb with h := hi, l := lo }

/-- Function `gb.set_flags(z, n, h, c)` (defined outside `src/`).  Modelled
    from the spec: store the four flag bits. -/
def set_flags (gb : Gameboy) (z n h c : Bool) : Gameboy :=
  { gb with f := { z := z, n := n, h := h, c := c } }

end Gameboy

/-- The decoded instructions the embedded claims exercise, enum `Instruction`
    of `instruction.rs`.  `POP_AF` is the `WordRegister::AccFlag` branch of
    the Rust `POP_R16` arm, split into its own constructor; signed 8-bit
    immediates are carried as `Int` in -128..127. -/
inductive Instruction
  | NOP
  | ADC_A_HL
  | ADD_A_HL
  | SBC_A_HL
  | SUB_A_HL
  | ADD_HL_R16 (r : Pair)
  | ADD_HL_SP
  | INCH_HL
  | ADD_SP_E8 (n : Int)
  | LD_HL_SP_E8 (n : Int)
  | DI
  | EI
  | PUSH_AF
  | PUSH_R16 (r : Pair)
  | POP_R16 (r : Pair)
  | POP_AF
  | LDH_N8_A (n : Nat)
  | CALL_N16 (n : Nat)
  | CALL_CC_N16 (cc : CC) (n : Nat)
  | RST (v : Nat)
  deriving DecidableEq

namespace Instruction

/-- Encoded byte length (`instruction.size()`, defined in `instruction.rs`
    outside `src/`).  Modelled from the spec: the static 1-3 byte lengths of
    the LR35902 encodings. -/
def size : Instruction → Nat
  | .ADD_SP_E8 _ | .LD_HL_SP_E8 _ | .LDH_N8_A _ => 2
  | .CALL_N16 _ | .CALL_CC_N16 _ _ => 3
  | _ => 1

/-- Cycle cost (`instruction.cycles(condition)`, defined in `instruction.rs`
    outside `src/`).  Modelled from the spec: base cost, or the alternate
    cost when a conditional's condition did not hold; in the machine-cycle
    unit the frame loop counts (17556 per frame). -/
def cycles (i : Instruction) (condition : Bool) : Nat :=
  match i with
  | .NOP | .DI | .EI => 1
  | .ADC_A_HL | .ADD_A_HL | .SBC_A_HL | .SUB_A_HL => 2
  | .ADD_HL_R16 _ | .ADD_HL_SP => 2
  | .INCH_HL => 3
  | .ADD_SP_E8 _ => 4
  | .LD_HL_SP_E8 _ => 3
  | .PUSH_AF | .PUSH_R16 _ => 4
  | .POP_R16 _ | .POP_AF => 3
  | .LDH_N8_A _ => 3
  | .CALL_N16 _ => 6
  | .CALL_CC_N16 _ _ => if condition then 6 else 3
  | .RST _ => 4

end Instruction

/-- The `ADD_SP_E8 | LD_HL_SP_E8` arm up to choosing the destination:
    computes the flag update and the 16-bit result from `(n as u8 & !0x80)`,
    exactly as lines 234-245 of `instruction_executor.rs`. -/
def add_sp_e8_common (gb : Gameboy) (n : Int) : Gameboy × Nat :=
  let m := (n.emod 256).toNat &&& 0x7F
  let p := if n < 0 then overflowing_sub16 gb.sp m else overflowing_add16 gb.sp m
  let half := if n < 0 then half_carry_16_sub gb.sp m 0 else half_carry_16_add gb.sp m 0
  (gb.set_flags false false half p.2, p.1)

/-- The `ADC_A_HL | ADD_A_HL` arm (lines 34-39), parameterized by the carry
    the arm selects: `1` when the instruction is `ADD_A_HL`, else the C flag. -/
def adc_add_a_hl_body (gb : Gameboy) (hl : Nat) (carry : Nat) : Option (Gameboy × Bool) :=
  let p := calc_with_carry [gb.a, gb.mem hl, carry] overflowing_add8
  match half_carry_8_add gb.a (gb.mem hl) carry with
  | none => none
  | some hc =>
      let gb1 := gb.set_flags (p.1 == 0) false hc p.2
      some ({ gb1 with a := p.1 }, true)

/-- The `SBC_A_HL | SUB_A_HL` arm (lines 88-93), parameterized by the carry
    the arm selects: `1` when the instruction is `SUB_A_HL`, else the C flag.
    The flags are set AFTER `a` is overwritten, so Z and H read the new `a`. -/
def sbc_sub_a_hl_body (gb : Gameboy) (hl : Nat) (carry : Nat) : Option (Gameboy × Bool) :=
  let p := calc_with_carry [gb.a, gb.mem hl, carry] overflowing_sub8
  let gb1 := { gb with a := p.1 }
  some (gb1.set_flags (gb1.a == 0) true (half_carry_8_sub gb1.a (gb.mem hl) carry) p.2, true)

/-- Shared push body: `wrapping_sub` the stack pointer, store `hi`, again,
    store `lo` (the PUSH_AF / PUSH_R16 / RST shape, total in SP). -/
def push_wrapping (gb : Gameboy) (hi lo : Nat) : Gameboy :=
  let sp1 := (gb.sp + 65536 - 1) % 65536
  let m1 := memWrite gb.mem sp1 hi
  let sp2 := (sp1 + 65536 - 1) % 65536
  { gb with sp := sp2, mem := memWrite m1 sp2 lo }

/-- Shared push body with checked subtraction: `gb.sp.to_address() - 1`
    twice (the CALL_N16 / CALL_CC_N16 / interrupt-dispatch shape), aborting
    when SP underflows. -/
def push_checked (gb : Gameboy) (hi lo : Nat) : Option Gameboy :=
  match checkedSub gb.sp 1 with
  | none => none
  | some sp1 =>
      let m1 := memWrite gb.mem sp1 hi
      match checkedSub sp1 1 with
      | none => none
      | some sp2 => some { gb with sp := sp2, mem := memWrite m1 sp2 lo }

/-- Body of the big `match instruction` of `execute_instruction` (after the
    PC advance), restricted to the embedded instructions.  `hl` is the
    address captured by `let hl = gb.hl()` before the body runs.  Returns the
    new state and the `condition` flag; `none` is a checked-arithmetic abort. -/
def exec_body (gb : Gameboy) (hl : Nat) : Instruction → Option (Gameboy × Bool)
  | .NOP => some (gb, true)
  | .ADC_A_HL => adc_add_a_hl_body gb hl (if gb.f.c then 1 else 0)
  | .ADD_A_HL => adc_add_a_hl_body gb hl 1
  | .SBC_A_HL => sbc_sub_a_hl_body gb hl (if gb.f.c then 1 else 0)
  | .SUB_A_HL => sbc_sub_a_hl_body gb hl 1
  | .ADD_HL_R16 r =>
      -- lines 102-107: flags from the 16-bit add; Z is kept (`gb.f.z`).
      let hc := half_carry_16_add gb.hl (gb.pairValue r) 0
      let p := overflowing_add16 gb.hl (gb.pairValue r)
      let gb1 := gb.set_hl p.1
      some (gb1.set_flags gb1.f.z false hc p.2, true)
  | .ADD_HL_SP =>
      -- lines 229-233: note Z := (result == 0) and N := true here.
      let p := overflowing_add16 gb.hl gb.sp
      let gb1 := gb.set_flags (p.1 == 0) true (half_carry_16_add gb.hl gb.sp 0) p.2
      some (gb1.set_hl p.1, true)
  | .INCH_HL =>
      -- lines 114-119: note the value update is `old.wrapping_sub(1)`.
      let old := gb.mem hl
      let gb1 := { gb with mem := memWrite gb.mem hl ((old + 256 - 1) % 256) }
      match half_carry_8_add old 1 0 with
      | none => none
      | some hc => some (gb1.set_flags (gb1.mem hl == 0) false hc gb.f.c, true)
  | .ADD_SP_E8 n =>
      let q := add_sp_e8_common gb n
      some ({ q.1 with sp := q.2 }, true)
  | .LD_HL_SP_E8 n =>
      let q := add_sp_e8_common gb n
      some (q.1.set_hl q.2, true)
  | .DI => some ({ gb with ime := false }, true)
  | .EI => some ({ gb with ime_counter := 2 }, true)
  | .PUSH_AF =>
      -- lines 272-277: store A at SP-1, then the packed F byte at SP-2.
      some (push_wrapping gb gb.a gb.f.value, true)
  | .PUSH_R16 r =>
      -- lines 278-290: store the high byte at SP-1, the low byte at SP-2.
      some (push_wrapping gb (gb.pairHigh r) (gb.pairLow r), true)
  | .POP_R16 r =>
      -- lines 255-262: low from SP, high from SP+1, SP += 2 (wrapping).
      let lo := gb.mem gb.sp
      let sp1 := (gb.sp + 1) % 65536
      let hi := gb.mem sp1
      some ((Gameboy.setPair { gb with sp := (sp1 + 1) % 65536 } r hi lo), true)
  | .POP_AF =>
      -- lines 263-267: F from the byte at SP (low nibble dropped), A from SP+1.
      let f1 := FlagRegister.set (gb.mem gb.sp)
      let a1 := gb.mem ((gb.sp + 1) % 65536)
      some ({ gb with f := f1, a := a1, sp := (gb.sp + 2) % 65536 }, true)
  | .LDH_N8_A n =>
      -- lines 165-173; the u8 index reaches page 0xFF00 (bus modelled from
      -- the spec as page-0xFF addressing for LDH).
      if n == 0 then
        let v := (gb.mem 0xFF00 &&& 0xCF) ||| gb.a
        some ({ gb with mem := memWrite gb.mem 0xFF00 v }, true)
      else
        some ({ gb with mem := memWrite gb.mem (0xFF00 + n) gb.a }, true)
  | .CALL_N16 n =>
      -- lines 192-199: checked SP decrements, then PC := n.
      match push_checked gb (gb.pc / 256) (gb.pc % 256) with
      | none => none
      | some gb1 => some ({ gb1 with pc := n }, true)
  | .CALL_CC_N16 cc n =>
      -- lines 335-342.
      if cc_flag gb.f cc then
        match push_checked gb (gb.pc / 256) (gb.pc % 256) with
        | none => none
        | some gb1 => some ({ gb1 with pc := n }, true)
      else some (gb, false)
  | .RST v =>
      -- lines 221-228: wrapping SP decrements, then PC := vector.
      some ({ push_wrapping gb (gb.pc / 256) (gb.pc % 256) with pc := v }, true)

/-- Function `handle_interrupts` of `instruction_executor.rs`: advance the
    delayed-enable counter, then, if IME is set, dispatch the first source in
    priority order whose state is `Active` (clear IME and the IF bit, push PC
    high-then-low with checked SP subtraction, jump to the vector).  Returns
    whether a dispatch happened; `none` is the SP-underflow abort. -/
def handle_interrupts (gb0 : Gameboy) : Option (Gameboy × Bool) :=
  let c1 := gb0.ime_counter - 1
  let gb := if c1 = 0 then { gb0 with ime_counter := c1, ime := true }
            else { gb0 with ime_counter := max c1 (-1) }
  if gb.ime = false then some (gb, false)
  else
    match InterruptHandler.priorityOrder.find?
        (fun i => gb.interrupt.get_state i == .Active) with
    | none => some (gb, false)
    | some i =>
        let gb1 := { gb with ime := false, interrupt := gb.interrupt.set i false }
        match push_checked gb1 (gb1.pc / 256) (gb1.pc % 256) with
        | none => none
        | some gb2 => some ({ gb2 with pc := i.vector }, true)

/-- Function `execute_instruction`: advance PC by the encoded size (checked
    u16 add), run the body, poll `handle_interrupts`, and return the cycle
    count `instruction.cycles(condition) + (4 if an interrupt dispatched)`. -/
def execute_instruction (gb0 : Gameboy) (instruction : Instruction) : Option (Gameboy × Nat) :=
  match checkedAdd 65536 gb0.pc instruction.size with
  | none => none
  | some pc1 =>
      let gb := { gb0 with pc := pc1 }
      let hl := gb.hl
      match exec_body gb hl instruction with
      | none => none
      | some (gb1, condition) =>
          match handle_interrupts gb1 with
          | none => none
          | some (gb2, dispatched) =>
              some (gb2, instruction.cycles condition + if dispatched then 4 else 0)

/-- Running two instructions in sequence. -/
def execute2 (gb : Gameboy) (i1 i2 : Instruction) : Option (Gameboy × Nat) :=
  match execute_instruction gb i1 with
  | none => none
  | some (gb1, _) => execute_instruction gb1 i2

/-- Concrete base state used by the concrete evaluations: post-boot PC,
    empty stack area, all registers and memory zero, interrupts idle. -/
def gbBase : Gameboy :=
  { a := 0, b := 0, c := 0, d := 0, e := 0, h := 0, l := 0,
    f := { z := false, n := false, h := false, c := false },
    sp := 0xFFFE, pc := 0x0100, ime := false, ime_counter := -1,
    interrupt := InterruptHandler.new, mem := fun _ => 0 }

/-! Helper lemmas about the embedded operations. -/

theorem checkedAdd_of_lt {w a b : Nat} (hab : a + b < w) :
    checkedAdd w a b = some (a + b) := by
  simp [checkedAdd, hab]

theorem checkedSub_of_le {a b : Nat} (hba : b ≤ a) :
    checkedSub a b = some (a - b) := by
  simp [checkedSub, hba]

theorem memWrite_self (m : Nat → Nat) (addr v : Nat) :
    memWrite m addr v addr = v := by
  simp [memWrite]

theorem memWrite_other (m : Nat → Nat) (addr v x : Nat) (hx : x ≠ addr) :
    memWrite m addr v x = m x := by
  simp [memWrite, hx]

/-- The 16-bit half-carry helper of the source can never return true: its
    result is masked with 0x10 and then compared against 0x1000. -/
theorem half_carry_16_add_false (a b c : Nat) : half_carry_16_add a b c = false := by
  have hle : (((a &&& 0xFF) + ((b + c) % 65536 &&& 0xFF)) % 65536 &&& 0x10) ≤ 0x10 :=
    Nat.and_le_right
  simp only [half_carry_16_add, beq_eq_false_iff_ne, ne_eq]
  omega

/-- The interrupt poll with IME clear and an idle (non-positive) delayed
    enable counter neither dispatches nor aborts: it only parks the counter
    at -1. -/
theorem handle_interrupts_idle (gb : Gameboy) (hime : gb.ime = false)
    (hctr : gb.ime_counter ≤ 0) :
    handle_interrupts gb = some ({ gb with ime_counter := -1 }, false) := by
  have h1 : ¬(gb.ime_counter - 1 = 0) := by omega
  have h2 : max (gb.ime_counter - 1) (-1) = -1 :=
    max_eq_right (by omega)
  simp [handle_interrupts, h1, h2, hime]

/-- Packing then unpacking the flag register is the identity. -/
theorem flag_set_value (fr : FlagRegister) : FlagRegister.set fr.value = fr := by
  rcases fr with ⟨z, n, hf, cf⟩
  cases z <;> cases n <;> cases hf <;> cases cf <;> decide

/-- The checked push succeeds exactly when SP is at least 2. -/
theorem push_checked_isSome (gb : Gameboy) (hi lo : Nat) :
    (push_checked gb hi lo).isSome ↔ 2 ≤ gb.sp := by
  rcases hsp : gb.sp with _ | _ | n
  · simp [push_checked, checkedSub, hsp]
  · simp [push_checked, checkedSub, hsp]
  · simp [push_checked, checkedSub, hsp]

/-! Claim theorems. -/

/-- C2: evaluation of the code at A=0, mem[HL]=0, C flag clear.  ADD A,(HL)
    leaves A=1 and SUB A,(HL) leaves A=255, because the shared
    `ADC_A_HL | ADD_A_HL` and `SBC_A_HL | SUB_A_HL` arms feed a constant
    carry of 1 into the ADD/SUB case (and `calc_with_carry` folds the
    subtraction from an accumulator of 0, computing 0-A-mem-1); the claim's
    carry-free `(A + mem[HL]) mod 256 = 0` and `(A - mem[HL]) mod 256 = 0`
    are contradicted. -/
theorem add_sub_a_hl_forced_carry_eval :
    (execute_instruction gbBase .ADD_A_HL).map (fun p => p.1.a) = some 1 ∧
    (execute_instruction gbBase .SUB_A_HL).map (fun p => p.1.a) = some 255 := by
  constructor <;> rfl

/-- C3: evaluation of the code on the two-instruction sequence EI; DI from
    IME=false with an idle counter and no pending interrupts.  After both
    steps IME is true: DI does not reset `ime_counter`, so the enable EI
    scheduled fires in DI's own end-of-instruction poll, contradicting the
    claim that IME stays false. -/
theorem ei_di_leaves_ime_enabled_eval :
    (execute2 gbBase .EI .DI).map (fun p => p.1.ime) = some true := by
  rfl

/-- C4: evaluation of LD HL,SP+e8 at the claim's own boundary input
    SP=0xFFF8, e8=0x08, and of ADD SP,e8 at SP=0x0100, e8=-1.  The first
    yields H=0 (the claim demands H=1, the bit-3 carry): `half_carry_16_add`
    is constantly false and C comes from bit 15, not bit 7.  The second
    yields SP=0x0081 instead of 0x00FF: the immediate's sign bit is
    discarded by `n as u8 & !0x80`. -/
theorem add_sp_e8_flags_eval :
    (execute_instruction { gbBase with sp := 0xFFF8 } (.LD_HL_SP_E8 8)).map
      (fun p => (p.1.hl, p.1.f.z, p.1.f.n, p.1.f.h, p.1.f.c))
      = some (0x0000, false, false, false, true) ∧
    (execute_instruction { gbBase with sp := 0x0100 } (.ADD_SP_E8 (-1))).map
      (fun p => p.1.sp) = some 0x0081 := by
  constructor <;> rfl

/-- C5: the H flag of ADD HL,rr is constantly false (for every state and
    operand), so the bit-11 carry the claim demands is never reported —
    at HL=BC=0x0800 the code yields H=0 — and the ADD HL,SP arm sets N=1
    and Z=(result==0) instead of N=0 with Z unchanged (evaluated at HL=1,
    SP=1, where Z was prior true via its untouched field but comes out
    false and N comes out true). -/
theorem add_hl_flags_eval :
    (∀ a b c : Nat, half_carry_16_add a b c = false) ∧
    (execute_instruction { gbBase with h := 0x08, b := 0x08 } (.ADD_HL_R16 .BC)).map
      (fun p => (p.1.hl, p.1.f.h, p.1.f.c)) = some (0x1000, false, false) ∧
    (execute_instruction
        { gbBase with l := 1, sp := 1,
                      f := { z := true, n := false, h := false, c := false } }
        .ADD_HL_SP).map
      (fun p => (p.1.f.z, p.1.f.n)) = some (false, true) := by
  refine ⟨half_carry_16_add_false, ?_, ?_⟩ <;> rfl

/-- C6: evaluation of INC (HL) at mem[HL]=5 (HL=0): the code writes back 4,
    i.e. `old.wrapping_sub(1)`, not the 6 the claim (and the spec's
    correct-implementation note) demands, and Z is computed from that
    decremented byte. -/
theorem inch_hl_eval :
    (execute_instruction { gbBase with mem := fun _ => 5 } .INCH_HL).map
      (fun p => (p.1.mem 0, p.1.f.z, p.1.f.n, p.1.f.h, p.1.f.c))
      = some (4, false, false, false, false) := by
  rfl

/-- C7 counterexample: the freshly constructed interrupt controller is a
    reachable state in which reading IF (0xFF0F) returns 0x00, whose bits
    5-7 are NOT set: `new` initializes both registers to 0x00 and `read`
    returns the stored byte verbatim. -/
theorem interrupt_read_initial_low_bits :
    InterruptHandler.Reachable InterruptHandler.new ∧
    InterruptHandler.new.read 0xFF0F = some 0x00 ∧
    ¬((0x00 : Nat) &&& 0xE0 = 0xE0) :=
  ⟨.new, by decide, by decide⟩

/-- C7 (amended): in every interrupt-controller state, read(addr) returns
    Some exactly when addr is 0xFF0F or 0xFFFF (returning the stored
    register byte verbatim); every byte stored through write has bits 5-7
    forced to 1, so reads of a register that was last set through write
    return a byte with bits 5-7 set — but the initial, never-written
    registers read back as 0x00 without those bits. -/
theorem interrupt_read_domain_and_write_bits (s : InterruptHandler)
    (address v : Nat) :
    ((s.read address).isSome ↔ address = 0xFF0F ∨ address = 0xFFFF) ∧
    (address = 0xFF0F ∨ address = 0xFFFF →
      (s.write address v).1.read address = some (v ||| 0xE0)) ∧
    (v ||| 0xE0) &&& 0xE0 = 0xE0 := by
  refine ⟨?_, ?_, ?_⟩
  · by_cases h1 : address = 0xFFFF <;> by_cases h2 : address = 0xFF0F <;>
      simp [InterruptHandler.read, InterruptHandler.IE_ADDRESS,
            InterruptHandler.IF_ADDRESS, h1, h2]
  · rintro (h | h) <;> subst h <;>
      simp [InterruptHandler.read, InterruptHandler.write,
            InterruptHandler.IE_ADDRESS, InterruptHandler.IF_ADDRESS]
  · refine Nat.eq_of_testBit_eq (fun i => ?_)
    simp only [Nat.testBit_and, Nat.testBit_or]
    cases hv : v.testBit i <;> cases he : (0xE0 : Nat).testBit i <;> simp [hv, he]

/-- C7 witness: the amended theorem applied to the initial controller at
    address 0xFF0F with value 0x04, its hypothesis discharged there. -/
theorem interrupt_read_domain_and_write_bits_witness :
    (InterruptHandler.new.write 0xFF0F 0x04).1.read 0xFF0F = some (0x04 ||| 0xE0) :=
  (interrupt_read_domain_and_write_bits InterruptHandler.new 0xFF0F 0x04).2.1
    (Or.inl rfl)

/-- With IE = IF = 0x05 the first Active source in priority order is VBlank. -/
theorem find_active_five :
    InterruptHandler.priorityOrder.find?
      (fun i => InterruptHandler.get_state ⟨5, 5⟩ i == .Active) = some .VBlankInt := by
  decide

/-- Clearing the VBlank bit of IF = 0x05 leaves IF = 0x04. -/
theorem set_vblank_five :
    InterruptHandler.set ⟨5, 5⟩ .VBlankInt false = ⟨4, 5⟩ := by
  decide

/-- The checked push at SP at least 2 stores `hi` at SP-1 and `lo` at SP-2. -/
theorem push_checked_eq (gb : Gameboy) (hi lo : Nat) (hsp : 2 ≤ gb.sp) :
    push_checked gb hi lo
      = some { gb with
                sp := gb.sp - 2,
                mem := memWrite (memWrite gb.mem (gb.sp - 1) hi) (gb.sp - 2) lo } := by
  have h1 : (1 : Nat) ≤ gb.sp := by omega
  have h2 : (1 : Nat) ≤ gb.sp - 1 := by omega
  have h3 : gb.sp - 1 - 1 = gb.sp - 2 := by omega
  simp [push_checked, checkedSub_of_le h1, checkedSub_of_le h2, h3]

/-- C1 counterexample: a concrete state with IME=true, IE=0x05, IF=0x05 in
    which the NOP step dispatches VBlank but charges 4 extra cycles (the
    literal `4` of line 347 of the executor), not the 20 the claim states. -/
theorem interrupt_dispatch_cycles_counterexample :
    (execute_instruction
        { gbBase with
           ime := true, pc := 0x1234,
           interrupt := { flag := 0x05, enable := 0x05 } } .NOP).map (fun p => p.2)
      = some (Instruction.cycles .NOP true + 4) ∧
    Instruction.cycles .NOP true + 4 ≠ Instruction.cycles .NOP true + 20 :=
  ⟨by rfl, by decide⟩

/-- The interrupt poll on a state with IME=true, IE=0x05, IF=0x05 and SP at
    least 2 dispatches VBlank: IME cleared, IF bit 0 cleared, PC pushed high
    byte at SP-1 and low byte at SP-2, PC set to 0x0040. -/
theorem handle_interrupts_dispatch (gb : Gameboy)
    (hime : gb.ime = true) (hie : gb.interrupt.enable = 0x05)
    (hif : gb.interrupt.flag = 0x05) (hsp : 2 ≤ gb.sp) :
    handle_interrupts gb = some
      ({ gb with
          ime_counter := if gb.ime_counter - 1 = 0 then 0
                         else max (gb.ime_counter - 1) (-1),
          ime := false,
          interrupt := ⟨4, 5⟩,
          sp := gb.sp - 2,
          mem := memWrite (memWrite gb.mem (gb.sp - 1) (gb.pc / 256)) (gb.sp - 2)
                   (gb.pc % 256),
          pc := 0x40 }, true) := by
  obtain ⟨ra, rb, rc, rd, re, rh, rl, rf, rsp, rpc, rime, rctr, ⟨fl, en⟩, rmem⟩ := gb
  dsimp only at hime hie hif hsp ⊢
  subst hime hie hif
  have h1 : (1 : Nat) ≤ rsp := by omega
  have h2 : (1 : Nat) ≤ rsp - 1 := by omega
  have h3 : rsp - 1 - 1 = rsp - 2 := by omega
  by_cases hc : rctr - 1 = 0 <;>
    simp only [handle_interrupts, hc, if_true, if_false, reduceIte, Bool.true_eq_false,
      find_active_five, set_vblank_five, push_checked, checkedSub_of_le h1,
      checkedSub_of_le h2, h3, InterruptId.vector]

/-- C1 (amended): for every CPU state with IME=true, IE=0x05, IF=0x05 and
    SP at least 2, the interrupt poll at the end of the next executed step
    (formalized for NOP) dispatches VBlank: afterwards IF=0x04, IME=false,
    PC=0x0040, SP is decreased by 2 with the old PC (the PC after the
    instruction, here PC+1) pushed high byte first, and 4 extra cycles —
    not 20 — are charged on top of the instruction's own cycle cost. -/
theorem interrupt_dispatch_vblank (gb : Gameboy)
    (hime : gb.ime = true) (hie : gb.interrupt.enable = 0x05)
    (hif : gb.interrupt.flag = 0x05) (hsp : 2 ≤ gb.sp) (hpc : gb.pc + 1 < 65536) :
    ∃ gb2, execute_instruction gb .NOP = some (gb2, Instruction.cycles .NOP true + 4) ∧
      gb2.interrupt.flag = 0x04 ∧ gb2.ime = false ∧ gb2.pc = 0x40 ∧
      gb2.sp = gb.sp - 2 ∧ gb2.mem (gb.sp - 1) = (gb.pc + 1) / 256 ∧
      gb2.mem (gb.sp - 2) = (gb.pc + 1) % 256 := by
  have hne : gb.sp - 1 ≠ gb.sp - 2 := by omega
  have hstep := handle_interrupts_dispatch { gb with pc := gb.pc + 1 } hime hie hif hsp
  refine ⟨{ gb with
             ime_counter := if gb.ime_counter - 1 = 0 then 0
                            else max (gb.ime_counter - 1) (-1),
             ime := false,
             interrupt := ⟨4, 5⟩,
             sp := gb.sp - 2,
             mem := memWrite (memWrite gb.mem (gb.sp - 1) ((gb.pc + 1) / 256))
                      (gb.sp - 2) ((gb.pc + 1) % 256),
             pc := 0x40 }, ?_, rfl, rfl, rfl, rfl, ?_, ?_⟩
  · simp only [execute_instruction, Instruction.size, checkedAdd_of_lt hpc, exec_body,
      hstep, reduceIte]
  · dsimp only
    rw [memWrite_other _ _ _ _ hne, memWrite_self]
  · dsimp only
    rw [memWrite_self]

/-- C1 witness: the amended dispatch theorem applied to the concrete state
    gbBase with IME on and IE=IF=0x05, all hypotheses discharged there. -/
theorem interrupt_dispatch_vblank_witness :
    ∃ gb2, execute_instruction { gbBase with ime := true, interrupt := ⟨5, 5⟩ } .NOP
        = some (gb2, Instruction.cycles .NOP true + 4) ∧
      gb2.interrupt.flag = 0x04 ∧ gb2.ime = false ∧ gb2.pc = 0x40 ∧
      gb2.sp = 0xFFFC ∧ gb2.mem 0xFFFD = 0x01 ∧ gb2.mem 0xFFFC = 0x01 :=
  interrupt_dispatch_vblank { gbBase with ime := true, interrupt := ⟨5, 5⟩ }
    rfl rfl rfl (by decide) (by decide)

/-- C8: for every state whose end-of-instruction poll dispatches nothing
    (IME=false, idle delayed-enable counter), PUSH rr; POP rr restores the
    two registers of the pair and SP; PUSH AF; POP AF restores A, the flag
    register, and SP; and every packed F byte has a zero low nibble (the
    POP AF mask). -/
theorem push_pop_roundtrip (gb : Gameboy) (r : Pair)
    (hime : gb.ime = false) (hctr : gb.ime_counter ≤ 0)
    (hsp : gb.sp < 65536) (hpc : gb.pc + 2 < 65536) :
    (execute2 gb (.PUSH_R16 r) (.POP_R16 r)).map
        (fun p => (p.1.pairHigh r, p.1.pairLow r, p.1.sp))
      = some (gb.pairHigh r, gb.pairLow r, gb.sp) ∧
    (execute2 gb .PUSH_AF .POP_AF).map (fun p => (p.1.a, p.1.f, p.1.sp))
      = some (gb.a, gb.f, gb.sp) ∧
    (∀ fr : FlagRegister, fr.value % 16 = 0) := by
  obtain ⟨ra, rb, rc, rd, re, rh, rl, rf, rsp, rpc, rime, rctr, rintr, rmem⟩ := gb
  dsimp only at hime hctr hsp hpc ⊢
  subst hime
  have hA : rpc + 1 < 65536 := by omega
  have hB : rpc + 1 + 1 < 65536 := by omega
  have hneg : (-1 : Int) ≤ 0 := by decide
  have e1 : (((rsp + 65536 - 1) % 65536 + 65536 - 1) % 65536 + 1) % 65536
      = (rsp + 65536 - 1) % 65536 := by omega
  have e2 : ((((rsp + 65536 - 1) % 65536 + 65536 - 1) % 65536 + 1) % 65536 + 1) % 65536
      = rsp := by omega
  have e3 : (rsp + 65536 - 1) % 65536 ≠ ((rsp + 65536 - 1) % 65536 + 65536 - 1) % 65536 := by
    omega
  have e4 : (((rsp + 65536 - 1) % 65536 + 65536 - 1) % 65536 + 2) % 65536 = rsp := by omega
  refine ⟨?_, ?_, ?_⟩
  · cases r <;>
    · simp only [execute2, execute_instruction, Instruction.size, exec_body,
        checkedAdd_of_lt hA, checkedAdd_of_lt hB, push_wrapping,
        Gameboy.pairHigh, Gameboy.pairLow, Gameboy.setPair,
        handle_interrupts_idle, hctr, hneg, Option.map_some',
        Option.some.injEq, Prod.mk.injEq]
      refine ⟨?_, ?_, e2⟩
      · rw [e1, memWrite_other _ _ _ _ e3, memWrite_self]
      · rw [memWrite_self]
  · simp only [execute2, execute_instruction, Instruction.size, exec_body,
      checkedAdd_of_lt hA, checkedAdd_of_lt hB, push_wrapping,
      handle_interrupts_idle, hctr, hneg, Option.map_some',
      Option.some.injEq, Prod.mk.injEq]
    refine ⟨?_, ?_, e4⟩
    · rw [e1, memWrite_other _ _ _ _ e3, memWrite_self]
    · rw [memWrite_self, flag_set_value]
  · intro fr
    rcases fr with ⟨z, n, hb, cb⟩
    cases z <;> cases n <;> cases hb <;> cases cb <;> decide

/-- C8 witness: the roundtrip theorem applied to a concrete state with
    BC = 0x1234, all hypotheses discharged there. -/
theorem push_pop_roundtrip_witness :
    (execute2 { gbBase with b := 0x12, c := 0x34 } (.PUSH_R16 .BC) (.POP_R16 .BC)).map
        (fun p => (p.1.pairHigh .BC, p.1.pairLow .BC, p.1.sp))
      = some (0x12, 0x34, 0xFFFE) ∧
    (execute2 { gbBase with b := 0x12, c := 0x34 } .PUSH_AF .POP_AF).map
        (fun p => (p.1.a, p.1.f, p.1.sp))
      = some (0, { z := false, n := false, h := false, c := false }, 0xFFFE) ∧
    (∀ fr : FlagRegister, fr.value % 16 = 0) :=
  push_pop_roundtrip { gbBase with b := 0x12, c := 0x34 } .BC rfl (by decide)
    (by decide) (by decide)

/-- C9: writing A through LDH (n),A stores, for n = 0 (the joypad port),
    the merged byte (mem[0xFF00] AND 0xCF) OR A rather than A itself, and
    for every nonzero immediate n stores exactly A at 0xFF00+n (stated for
    steps whose poll dispatches nothing, so the store is the byte visible
    afterwards). -/
theorem ldh_n8_a_store (gb : Gameboy) (n : Nat)
    (hime : gb.ime = false) (hctr : gb.ime_counter ≤ 0) (hpc : gb.pc + 2 < 65536) :
    (n = 0 → (execute_instruction gb (.LDH_N8_A n)).map (fun p => p.1.mem 0xFF00)
      = some ((gb.mem 0xFF00 &&& 0xCF) ||| gb.a)) ∧
    (n ≠ 0 → (execute_instruction gb (.LDH_N8_A n)).map (fun p => p.1.mem (0xFF00 + n))
      = some gb.a) := by
  obtain ⟨ra, rb, rc, rd, re, rh, rl, rf, rsp, rpc, rime, rctr, rintr, rmem⟩ := gb
  dsimp only at hime hctr hpc ⊢
  subst hime
  have hneg : (-1 : Int) ≤ 0 := by decide
  constructor
  · rintro rfl
    simp only [execute_instruction, Instruction.size, checkedAdd_of_lt hpc, exec_body,
      beq_self_eq_true, if_true, handle_interrupts_idle, hctr, hneg, Option.map_some']
    rw [memWrite_self]
  · intro hn
    have hb : (n == 0) = false := by simpa using hn
    simp only [execute_instruction, Instruction.size, checkedAdd_of_lt hpc, exec_body,
      hb, Bool.false_eq_true, if_false, handle_interrupts_idle, hctr, hneg,
      Option.map_some']
    rw [memWrite_self]

/-- C9 witness: the LDH theorem applied to the concrete state gbBase at the
    immediates 0 and 3, with each implication's hypothesis discharged. -/
theorem ldh_n8_a_store_witness :
    (execute_instruction gbBase (.LDH_N8_A 0)).map (fun p => p.1.mem 0xFF00)
      = some ((gbBase.mem 0xFF00 &&& 0xCF) ||| gbBase.a) ∧
    (execute_instruction gbBase (.LDH_N8_A 3)).map (fun p => p.1.mem (0xFF00 + 3))
      = some gbBase.a :=
  ⟨(ldh_n8_a_store gbBase 0 rfl (by decide) (by decide)).1 rfl,
   (ldh_n8_a_store gbBase 3 rfl (by decide) (by decide)).2 (by decide)⟩

/-- CALL nn with an idle poll completes exactly when SP is at least 2. -/
theorem call_n16_defined (gb : Gameboy) (n : Nat) (hime : gb.ime = false)
    (hctr : gb.ime_counter ≤ 0) (hpc : gb.pc + 3 < 65536) :
    (execute_instruction gb (.CALL_N16 n)).isSome ↔ 2 ≤ gb.sp := by
  have hneg : (-1 : Int) ≤ 0 := by decide
  obtain ⟨ra, rb, rc, rd, re, rh, rl, rf, rsp, rpc, rime, rctr, rintr, rmem⟩ := gb
  dsimp only at hime hctr hpc ⊢
  subst hime
  rcases rsp with _ | _ | m
  · simp [execute_instruction, Instruction.size, checkedAdd_of_lt hpc, exec_body,
      push_checked, checkedSub]
  · simp [execute_instruction, Instruction.size, checkedAdd_of_lt hpc, exec_body,
      push_checked, checkedSub]
  · have k1 : (1 : Nat) ≤ m + 2 := by omega
    have k2 : (1 : Nat) ≤ m + 1 := by omega
    simp [execute_instruction, Instruction.size, checkedAdd_of_lt hpc, exec_body,
      push_checked, checkedSub_of_le k1, checkedSub_of_le k2,
      handle_interrupts_idle, hctr, hneg]

/-- A taken CALL cc,nn with an idle poll completes exactly when SP is at
    least 2. -/
theorem call_cc_n16_defined (gb : Gameboy) (cc : CC) (n : Nat) (hime : gb.ime = false)
    (hctr : gb.ime_counter ≤ 0) (hpc : gb.pc + 3 < 65536)
    (hcc : cc_flag gb.f cc = true) :
    (execute_instruction gb (.CALL_CC_N16 cc n)).isSome ↔ 2 ≤ gb.sp := by
  have hneg : (-1 : Int) ≤ 0 := by decide
  obtain ⟨ra, rb, rc, rd, re, rh, rl, rf, rsp, rpc, rime, rctr, rintr, rmem⟩ := gb
  dsimp only at hime hctr hpc hcc ⊢
  subst hime
  rcases rsp with _ | _ | m
  · simp [execute_instruction, Instruction.size, checkedAdd_of_lt hpc, exec_body,
      hcc, push_checked, checkedSub]
  · simp [execute_instruction, Instruction.size, checkedAdd_of_lt hpc, exec_body,
      hcc, push_checked, checkedSub]
  · have k1 : (1 : Nat) ≤ m + 2 := by omega
    have k2 : (1 : Nat) ≤ m + 1 := by omega
    simp [execute_instruction, Instruction.size, checkedAdd_of_lt hpc, exec_body,
      hcc, push_checked, checkedSub_of_le k1, checkedSub_of_le k2,
      handle_interrupts_idle, hctr, hneg]

/-- A poll that is about to dispatch (IME set, an Active source found)
    completes exactly when SP is at least 2. -/
theorem dispatch_defined (gb : Gameboy) (hime : gb.ime = true)
    (hctr : gb.ime_counter ≤ 0)
    (hfind : (InterruptHandler.priorityOrder.find?
      (fun i => gb.interrupt.get_state i == .Active)).isSome) :
    (handle_interrupts gb).isSome ↔ 2 ≤ gb.sp := by
  obtain ⟨ra, rb, rc, rd, re, rh, rl, rf, rsp, rpc, rime, rctr, rintr, rmem⟩ := gb
  dsimp only at hime hctr hfind ⊢
  subst hime
  have hc : ¬(rctr - 1 = 0) := by omega
  rcases hf : InterruptHandler.priorityOrder.find?
      (fun i => rintr.get_state i == .Active) with _ | i
  · rw [hf] at hfind
    simp at hfind
  · rcases rsp with _ | _ | m
    · simp [handle_interrupts, hc, hf, push_checked, checkedSub]
    · simp [handle_interrupts, hc, hf, push_checked, checkedSub]
    · have k1 : (1 : Nat) ≤ m + 2 := by omega
      have k2 : (1 : Nat) ≤ m + 1 := by omega
      simp [handle_interrupts, hc, hf, push_checked, checkedSub_of_le k1,
        checkedSub_of_le k2]

/-- RST with an idle poll completes for every SP (wrapping push). -/
theorem rst_total (gb : Gameboy) (v : Nat) (hime : gb.ime = false)
    (hctr : gb.ime_counter ≤ 0) (hpc : gb.pc + 1 < 65536) :
    (execute_instruction gb (.RST v)).isSome := by
  have hneg : (-1 : Int) ≤ 0 := by decide
  obtain ⟨ra, rb, rc, rd, re, rh, rl, rf, rsp, rpc, rime, rctr, rintr, rmem⟩ := gb
  dsimp only at hime hctr hpc ⊢
  subst hime
  simp only [execute_instruction, Instruction.size, checkedAdd_of_lt hpc, exec_body,
    push_wrapping, handle_interrupts_idle, hctr, hneg, Option.isSome_some]

/-- PUSH rr and PUSH AF with an idle poll complete for every SP. -/
theorem push_total (gb : Gameboy) (r : Pair) (hime : gb.ime = false)
    (hctr : gb.ime_counter ≤ 0) (hpc : gb.pc + 1 < 65536) :
    (execute_instruction gb (.PUSH_R16 r)).isSome ∧
    (execute_instruction gb .PUSH_AF).isSome := by
  have hneg : (-1 : Int) ≤ 0 := by decide
  obtain ⟨ra, rb, rc, rd, re, rh, rl, rf, rsp, rpc, rime, rctr, rintr, rmem⟩ := gb
  dsimp only at hime hctr hpc ⊢
  subst hime
  constructor <;>
    simp only [execute_instruction, Instruction.size, checkedAdd_of_lt hpc, exec_body,
      push_wrapping, handle_interrupts_idle, hctr, hneg, Option.isSome_some]

/-- C10: CALL nn, a taken conditional CALL cc,nn and the interrupt dispatch
    push all use the checked subtraction `sp - 1`, so (with nothing else
    dispatching in the step) those steps complete exactly when SP is at
    least 2 and abort for SP = 0 or 1, while RST and PUSH use wrapping
    subtraction and complete for every SP. -/
theorem stack_underflow_discipline :
    (∀ gb n, gb.ime = false → gb.ime_counter ≤ 0 → gb.pc + 3 < 65536 →
      ((execute_instruction gb (.CALL_N16 n)).isSome ↔ 2 ≤ gb.sp)) ∧
    (∀ gb cc n, gb.ime = false → gb.ime_counter ≤ 0 → gb.pc + 3 < 65536 →
      cc_flag gb.f cc = true →
      ((execute_instruction gb (.CALL_CC_N16 cc n)).isSome ↔ 2 ≤ gb.sp)) ∧
    (∀ gb, gb.ime = true → gb.ime_counter ≤ 0 →
      (InterruptHandler.priorityOrder.find?
        (fun i => gb.interrupt.get_state i == .Active)).isSome →
      ((handle_interrupts gb).isSome ↔ 2 ≤ gb.sp)) ∧
    (∀ gb v, gb.ime = false → gb.ime_counter ≤ 0 → gb.pc + 1 < 65536 →
      (execute_instruction gb (.RST v)).isSome) ∧
    (∀ gb r, gb.ime = false → gb.ime_counter ≤ 0 → gb.pc + 1 < 65536 →
      (execute_instruction gb (.PUSH_R16 r)).isSome ∧
      (execute_instruction gb .PUSH_AF).isSome) :=
  ⟨fun gb n h1 h2 h3 => call_n16_defined gb n h1 h2 h3,
   fun gb cc n h1 h2 h3 h4 => call_cc_n16_defined gb cc n h1 h2 h3 h4,
   fun gb h1 h2 h3 => dispatch_defined gb h1 h2 h3,
   fun gb v h1 h2 h3 => rst_total gb v h1 h2 h3,
   fun gb r h1 h2 h3 => push_total gb r h1 h2 h3⟩

/-- C10 witness: the discipline theorem applied to concrete states — the
    call succeeds at SP=0xFFFE and aborts at SP=1, the dispatch push
    succeeds at SP=0xFFFE, and RST and PUSH succeed. -/
theorem stack_underflow_discipline_witness :
    (execute_instruction gbBase (.CALL_N16 0x2000)).isSome ∧
    ¬(execute_instruction { gbBase with sp := 1 } (.CALL_N16 0x2000)).isSome ∧
    (execute_instruction gbBase (.CALL_CC_N16 .NZ 0x2000)).isSome ∧
    (handle_interrupts { gbBase with ime := true, interrupt := ⟨5, 5⟩ }).isSome ∧
    (execute_instruction gbBase (.RST 0x28)).isSome ∧
    (execute_instruction gbBase (.PUSH_R16 .BC)).isSome := by
  have t := stack_underflow_discipline
  refine ⟨?_, ?_, ?_, ?_, ?_, ?_⟩
  · exact (t.1 gbBase 0x2000 rfl (by decide) (by decide)).mpr (by decide)
  · intro h
    exact absurd ((t.1 { gbBase with sp := 1 } 0x2000 rfl (by decide) (by decide)).mp h)
      (by decide)
  · exact (t.2.1 gbBase .NZ 0x2000 rfl (by decide) (by decide) (by decide)).mpr (by decide)
  · exact (t.2.2.1 { gbBase with ime := true, interrupt := ⟨5, 5⟩ } rfl (by decide)
      (by decide)).mpr (by decide)
  · exact t.2.2.2.1 gbBase 0x28 rfl (by decide) (by decide)
  · exact (t.2.2.2.2 gbBase .BC rfl (by decide) (by decide)).1

end Feboy
